import Mathlib

/-!
# StockMentions: verification of the mention store, extractor and ranking API

Shallow embedding of the core of the StockMentions repository:

* the `mentions` table and its `UNIQUE(ticker, post_id, comment_id)`
  constraint (database schema, `part_000`), together with the
  insert-ignoring-conflict write path (`record`) described by the spec;
* the `mentions_hourly` materialized view and its refresh script
  (`part_000`, `database/refresh.sql`);
* the `GET /api/subreddits` route (`part_007`): the `ticker_stats` /
  `ranked_tickers` SQL query, the blocklist filter, `LIMIT 10`, the
  JavaScript re-ranking `rank: index + 1` and the
  `change: Math.random() * 40 - 20` field;
* the ticker extractor.  The extractor implementation
  (`worker.py` / the mention-processor lambda, `extract_tickers`) is not
  part of the sources available here, only its plan and tests are; it is
  modelled from the spec where indicated.

Machine integers are modelled as `Int`/`Nat` (timestamps are epoch
milliseconds), SQL `NULL` as `Option`, and the `Math.random()` stream as
an explicit `Nat → ℚ` argument.
-/

namespace StockMentions

/-- The `source` column of `mentions`:
`source VARCHAR(10) NOT NULL CHECK (source IN ('post', 'comment'))`.
The CHECK constraint means every stored row has one of exactly these two
values, so the column is embedded as a two-constructor type. -/
inductive Source where
  | post : Source
  | comment : Source
deriving DecidableEq, Repr

/-- One row of the `mentions` table (schema `part_000`).  `BIGSERIAL id`
is the implicit list position and is not needed by any property; nullable
columns are `Option`; `sentiment_score DECIMAL(3,2)` is embedded as `ℚ`;
timestamps are epoch milliseconds. -/
structure MentionRow where
  ticker : String
  subreddit : String
  post_id : String
  comment_id : Option String
  source : Source
  created_at : Int
  author : Option String
  context : Option String
  sentiment_score : Option ℚ
  reddit_created_utc : Option Int
  post_title : Option String
deriving DecidableEq, Repr

/-- Whether two rows collide on the schema constraint
`UNIQUE(ticker, post_id, comment_id)` under PostgreSQL semantics (the
schema targets "Railway Postgres or any Postgres 14+"): two `NULL`
values of `comment_id` are NOT considered equal by a unique constraint,
so two rows whose `comment_id` is `NULL` never conflict, whatever their
ticker and post id. -/
def uniqueConflict (a b : MentionRow) : Bool :=
  a.ticker == b.ticker && a.post_id == b.post_id &&
    (match a.comment_id, b.comment_id with
     | some x, some y => x == y
     | _, _ => false)

/-- Modelled from the spec: the Mention Store write path
`record(ticker, post_id, comment_id_or_absent, ...)` — the
mention-processor lambda that performs the insert is not among the
available sources.  Per the spec it is an "insert, ignore conflict"
write against the storage-level uniqueness constraint, so it appends the
row unless the schema's `UNIQUE(ticker, post_id, comment_id)` constraint
(with PostgreSQL null semantics, `uniqueConflict`) rejects it. -/
def record (db : List MentionRow) (r : MentionRow) : List MentionRow :=
  if db.any (fun x => uniqueConflict x r) then db else db ++ [r]

/-- A post-level mention of AAPL: `comment_id` is absent (`NULL`),
as the schema prescribes for posts. -/
def aaplPostMention : MentionRow :=
  { ticker := "AAPL", subreddit := "stocks", post_id := "p1",
    comment_id := none, source := Source.post, created_at := 0,
    author := none, context := none, sentiment_score := none,
    reddit_created_utc := none, post_title := none }

/-- Keep the first occurrence of each element, dropping later
duplicates; embeds SQL `GROUP BY`, whose groups are materialized here in
order of first appearance of the key among the (filtered) rows. -/
def dedupKeepFirst {α : Type} [DecidableEq α] : List α → List α
  | [] => []
  | x :: xs => x :: (dedupKeepFirst xs).filter (fun y => y ≠ x)

/-- One row of the `ticker_stats` CTE of the `GET /api/subreddits`
query (`part_007`): per-ticker counts over the rows selected by the
time condition and the subreddit. -/
structure StatRow where
  ticker : String
  posts : Nat
  comments : Nat
  total : Nat
deriving DecidableEq, Repr

/-- The time cutoff computed by the route from the `timeRange` query
parameter: `daily` ⇒ 24 h, `weekly` ⇒ 7 d, `monthly` ⇒ 30 d, anything
else ⇒ 24 h (the `switch` default), in milliseconds before `now`
(`new Date(now.getTime() - ...)`). -/
def cutoffFor (timeRange : String) (now : Int) : Int :=
  if timeRange == "daily" then now - 24 * 60 * 60 * 1000
  else if timeRange == "weekly" then now - 7 * 24 * 60 * 60 * 1000
  else if timeRange == "monthly" then now - 30 * 24 * 60 * 60 * 1000
  else now - 24 * 60 * 60 * 1000

/-- The `ticker_stats` CTE: rows with `created_at >= cutoff AND
subreddit = $1`, grouped by ticker, with
`COUNT(CASE WHEN source = 'post' THEN 1 END)`,
`COUNT(CASE WHEN source = 'comment' THEN 1 END)` and `COUNT(*)`. -/
def tickerStats (db : List MentionRow) (cutoff : Int) (sub : String) :
    List StatRow :=
  let rows := db.filter fun r => cutoff ≤ r.created_at && r.subreddit == sub
  (dedupKeepFirst (rows.map (fun r => r.ticker))).map fun t =>
    let g := rows.filter fun r => r.ticker == t
    { ticker := t,
      posts := g.countP fun r => r.source == Source.post,
      comments := g.countP fun r => r.source == Source.comment,
      total := g.length }

/-- Insert a stat row into a list that is already ordered by
non-increasing `total`, before the first row of smaller-or-equal total.
Together with `sortByTotal` this embeds
`ROW_NUMBER() OVER (ORDER BY total_mentions DESC)`: the SQL orders by
`total_mentions` alone and specifies no tie-break, so the embedding
realizes the unspecified tie order as first-appearance order of the
groups (the sort is stable). -/
def insByTotal (x : StatRow) : List StatRow → List StatRow
  | [] => [x]
  | y :: ys => if y.total ≤ x.total then x :: y :: ys else y :: insByTotal x ys

/-- Stable sort by non-increasing `total` (see `insByTotal`). -/
def sortByTotal : List StatRow → List StatRow
  | [] => []
  | x :: xs => insByTotal x (sortByTotal xs)

/-- The literal `ticker NOT IN (...)` list of the route's final
`SELECT` (`part_007`). -/
def apiBlocklist : List String :=
  ["T", "RE", "HAS", "TECH", "LOW", "KEY", "PEAK", "FAST", "GS",
   "O", "C", "F", "K", "A", "B", "D", "E", "G", "H", "I", "J", "L",
   "M", "N", "P", "Q", "R", "S", "U", "V", "W", "X", "Y", "Z"]

/-- The rows the route's SQL returns: `ranked_tickers` filtered by
`ticker NOT IN (...) AND LENGTH(ticker) > 1`, `ORDER BY rank LIMIT 10`.
Filtering preserves the rank order of `ranked_tickers`, so ordering the
filtered rows by `rank` is ordering them as in the sorted list. -/
def keptStats (db : List MentionRow) (timeRange : String) (now : Int)
    (sub : String) : List StatRow :=
  ((sortByTotal (tickerStats db (cutoffFor timeRange now) sub)).filter
    fun s => s.ticker ∉ apiBlocklist && 1 < s.ticker.length).take 10

/-- One element of the JSON array the route builds per subreddit. -/
structure OutRow where
  rank : Nat
  ticker : String
  posts : Nat
  comments : Nat
  change : ℚ
deriving DecidableEq, Repr

/-- The JavaScript row mapping of the route:
`result.rows.map((row, index) => ({ rank: index + 1, ticker, posts,
comments, change: Math.random() * 40 - 20 }))`.  The `Math.random()`
stream is the explicit argument `rand` (its `index`-th value is the
draw made for row `index`). -/
def subredditRows (db : List MentionRow) (timeRange : String) (now : Int)
    (sub : String) (rand : Nat → ℚ) : List OutRow :=
  (keptStats db timeRange now sub).enum.map fun p =>
    { rank := p.1 + 1, ticker := p.2.ticker, posts := p.2.posts,
      comments := p.2.comments, change := rand p.1 * 40 - 20 }

/-- The rank/ticker/posts/comments part of an output row, without the
random `change` field. -/
def eraseChange (r : OutRow) : Nat × String × Nat × Nat :=
  (r.rank, r.ticker, r.posts, r.comments)

/-- `DATE_TRUNC('hour', created_at)` on epoch-millisecond timestamps:
floor to the enclosing hour (floor division, as time truncation rounds
toward the past also for pre-epoch instants). -/
def hourTrunc (t : Int) : Int :=
  Int.fdiv t 3600000 * 3600000

/-- One row of the `mentions_hourly` materialized view. -/
structure HourlyRow where
  ticker : String
  subreddit : String
  bucket_hour : Int
  hits : Nat
  posts : Nat
  comments : Nat
  avg_sentiment : Option ℚ
deriving DecidableEq, Repr

/-- The defining query of the `mentions_hourly` materialized view
(schema `part_000`): rows of the last 90 days
(`created_at >= NOW() - INTERVAL '90 days'`), grouped by
`(ticker, subreddit, DATE_TRUNC('hour', created_at))`, with `COUNT(*)`,
the post/comment case-sums and `AVG(sentiment_score)` (SQL `AVG`
ignores `NULL` inputs and is `NULL` on an empty set). -/
def mentionsHourly (now : Int) (db : List MentionRow) : List HourlyRow :=
  let rows := db.filter fun r => now - 90 * 24 * 60 * 60 * 1000 ≤ r.created_at
  let keys := dedupKeepFirst (rows.map fun r =>
    (r.ticker, r.subreddit, hourTrunc r.created_at))
  keys.map fun k =>
    let g := rows.filter fun r =>
      (r.ticker, r.subreddit, hourTrunc r.created_at) = k
    let ss := g.filterMap fun r => r.sentiment_score
    { ticker := k.1, subreddit := k.2.1, bucket_hour := k.2.2,
      hits := g.length,
      posts := g.countP fun r => r.source == Source.post,
      comments := g.countP fun r => r.source == Source.comment,
      avg_sentiment := if ss.isEmpty then none
                       else some (ss.sum / (ss.length : ℚ)) }

/-- The persistent state: the `mentions` table together with the cached
contents of the `mentions_hourly` materialized view (which PostgreSQL
stores separately from the base table and does not update on insert). -/
structure StoreState where
  mentions : List MentionRow
  cache : List HourlyRow
deriving DecidableEq, Repr

/-- A `record` write against the store: inserts into `mentions`
(subject to the unique constraint) and leaves the materialized view
cache untouched. -/
def recordOp (s : StoreState) (r : MentionRow) : StoreState :=
  { s with mentions := record s.mentions r }

/-- `REFRESH MATERIALIZED VIEW CONCURRENTLY mentions_hourly`
(`database/refresh.sql`): recomputes the view's defining query over the
current `mentions` rows, at the current time, and replaces the cache. -/
def refreshHourly (now : Int) (s : StoreState) : StoreState :=
  { s with cache := mentionsHourly now s.mentions }

/-! ## The ticker extractor

`extract_tickers` (worker.py / the mention-processor lambda) is not
among the available sources — only its plan (`part_007`), its PRD notes
and the description of its 48 tests are — so the extractor below is
modelled from the spec, rules 4.1/1–4: tokenization at word boundaries,
cashtag acceptance regardless of the blocklist, bare-uppercase
acceptance subject to the blocklist, the contraction guard, and the
promotion of special ambiguous symbols (canonically "AI") when another
strong signal (an accepted cashtag) occurs in the same text. -/

/-- The apostrophe character (used by the contraction guard). -/
def apos : Char := Char.ofNat 39

/-- A token produced by scanning a text: a maximal alphanumeric run,
with whether it was immediately preceded by a word-bounded `$`, and
whether it is immediately followed by an apostrophe-letter sequence
(a contraction remnant, e.g. the `IT` of `IT'S`). -/
structure Tok where
  dollar : Bool
  body : List Char
  contraction : Bool
deriving DecidableEq, Repr

/-- The scanner state: outside any token, inside a token (with its
`$`-flag and its body accumulated in reverse), or just past a token
that was immediately followed by an apostrophe, awaiting the next
character to decide whether the token is a contraction remnant. -/
inductive ScanSt where
  | out : ScanSt
  | inTok (dollar : Bool) (rev : List Char) : ScanSt
  | pendApos (dollar : Bool) (rev : List Char) : ScanSt
deriving DecidableEq, Repr

/-- Close a token whose body was accumulated in reverse. -/
def finTok (dollar : Bool) (rev : List Char) (contraction : Bool) : Tok :=
  { dollar := dollar, body := rev.reverse, contraction := contraction }

/-- Modelled from the spec: scan a text, one character per step, into
word-bounded alphanumeric tokens.  `p2` and `p1` are the two characters
immediately before the remaining input (`none` at the start); a token
is flagged `dollar` when the character before it is `$` and the one
before that is not alphanumeric (word-bounded cashtag), and flagged
`contraction` when it is immediately followed by an apostrophe and a
letter (e.g. the `IT` of `IT'S`). -/
def scanCore (p2 p1 : Option Char) (st : ScanSt) : List Char → List Tok
  | [] =>
    match st with
    | ScanSt.out => []
    | ScanSt.inTok d rev => [finTok d rev false]
    | ScanSt.pendApos d rev => [finTok d rev false]
  | c :: cs =>
    match st with
    | ScanSt.out =>
      if c.isAlphanum then
        let d := p1 = some '$' &&
          (match p2 with
           | none => true
           | some x => !x.isAlphanum)
        scanCore p1 (some c) (ScanSt.inTok d [c]) cs
      else
        scanCore p1 (some c) ScanSt.out cs
    | ScanSt.inTok d rev =>
      if c.isAlphanum then
        scanCore p1 (some c) (ScanSt.inTok d (c :: rev)) cs
      else if c = apos then
        scanCore p1 (some c) (ScanSt.pendApos d rev) cs
      else
        finTok d rev false :: scanCore p1 (some c) ScanSt.out cs
    | ScanSt.pendApos d rev =>
      if c.isAlpha then
        finTok d rev true ::
          scanCore p1 (some c) (ScanSt.inTok false [c]) cs
      else if c.isAlphanum then
        finTok d rev false ::
          scanCore p1 (some c) (ScanSt.inTok false [c]) cs
      else
        finTok d rev false :: scanCore p1 (some c) ScanSt.out cs

/-- All tokens of a text. -/
def toks (t : String) : List Tok :=
  scanCore none none ScanSt.out t.toList

/-- The token body as a string. -/
def tokStr (tk : Tok) : String :=
  String.mk tk.body

/-- The token body, case-normalized to uppercase (the spec: "only rule
1's explicit-prefix form is case-normalized before lookup"). -/
def tokUpper (tk : Tok) : String :=
  String.mk (tk.body.map Char.toUpper)

/-- Modelled from the spec, rule 4.1/1: a token is in explicit cashtag
form when it carries a word-bounded `$` prefix and consists of 1–5
letters. -/
def cashtagOk (tk : Tok) : Bool :=
  tk.dollar && tk.body.all Char.isAlpha &&
    1 ≤ tk.body.length && tk.body.length ≤ 5

/-- Modelled from the spec, rule 4.1/2–3: a bare candidate is a
non-`$`-prefixed token of 1–5 uppercase letters that is not a
contraction remnant (rule 3 rejects a candidate immediately followed by
an apostrophe-letter sequence). -/
def bareOk (tk : Tok) : Bool :=
  !tk.dollar && tk.body.all Char.isUpper &&
    1 ≤ tk.body.length && tk.body.length ≤ 5 && !tk.contraction

/-- Modelled from the spec: the cashtag matches of a text — explicit
cashtag tokens whose case-normalized body is in the reference set,
accepted regardless of the blocklist. -/
def cashtagSyms (t : String) (R : List String) : List String :=
  (((toks t).filter cashtagOk).map tokUpper).filter fun s => s ∈ R

/-- Modelled from the spec: the bare matches of a text — bare
candidates that are in the reference set and NOT on the
ambiguous/common-word blocklist. -/
def bareSyms (t : String) (R block : List String) : List String :=
  (((toks t).filter bareOk).map tokStr).filter fun s => s ∈ R ∧ s ∉ block

/-- Modelled from the spec, rule 4.1/4: whether the text carries a
strong ticker signal — an accepted explicit cashtag. -/
def strongSignal (t : String) (R : List String) : Bool :=
  !(cashtagSyms t R).isEmpty

/-- Modelled from the spec, rule 4.1/4: special ambiguous symbols
(canonically "AI") are promoted to bare matches, despite the blocklist,
when the text also carries a strong signal. -/
def promotedSyms (t : String) (R special : List String) : List String :=
  if strongSignal t R then
    (((toks t).filter bareOk).map tokStr).filter fun s => s ∈ R ∧ s ∈ special
  else []

/-- Modelled from the spec: `extract_tickers(text, reference_set)` of
worker.py (with the blocklist and the special-symbol list as explicit
arguments) — the set of distinct symbols the text genuinely mentions:
cashtag matches, bare matches and promoted special symbols, with
duplicates collapsed. -/
def extract_tickers (t : String) (R block special : List String) :
    List String :=
  dedupKeepFirst (cashtagSyms t R ++ bareSyms t R block ++
    promotedSyms t R special)

/-- The spec's canonical ambiguous/common-word blocklist examples. -/
def specBlocklist : List String :=
  ["A", "I", "IT", "BE", "FOR", "ARE", "ON", "AT", "AI"]

/-- The spec's canonical special-cased ambiguous symbols. -/
def specialSyms : List String :=
  ["AI"]

/-- Strict ascending lexical (alphabetical) order on ticker symbols,
as lexicographic order on their character sequences (the order `ORDER
BY ticker` would impose). -/
def lexLt (a b : String) : Prop :=
  List.Lex (fun x y : Char => x < y) a.toList b.toList

instance (a b : String) : Decidable (lexLt a b) := by
  unfold lexLt
  infer_instance

/-- The group of rows a `ticker_stats` row counts over: the rows that
pass the time condition and the subreddit filter and carry the given
ticker. -/
def groupRows (db : List MentionRow) (cutoff : Int) (sub t : String) :
    List MentionRow :=
  (db.filter fun r => cutoff ≤ r.created_at && r.subreddit == sub).filter
    fun r => r.ticker == t

/-- A post-level TSLA mention in r/stocks at time 0. -/
def tslaRow : MentionRow :=
  { ticker := "TSLA", subreddit := "stocks", post_id := "p1",
    comment_id := none, source := Source.post, created_at := 0,
    author := none, context := none, sentiment_score := none,
    reddit_created_utc := none, post_title := none }

/-- A post-level AAPL mention in r/stocks at time 0. -/
def aaplRow : MentionRow :=
  { tslaRow with ticker := "AAPL", post_id := "p2" }

/-- A mention of the blocklisted symbol FAST (a data-entry anomaly:
extraction should have rejected it, but a row for it exists). -/
def fastRow : MentionRow :=
  { tslaRow with ticker := "FAST", post_id := "p3" }

/-! ## Shared lemmas -/

/-- Deduplication preserves membership. -/
theorem mem_dedupKeepFirst {α : Type} [DecidableEq α] (a : α) :
    ∀ l : List α, a ∈ dedupKeepFirst l ↔ a ∈ l := by
  intro l
  induction l with
  | nil => simp [dedupKeepFirst]
  | cons x xs ih =>
    by_cases hax : a = x
    · subst hax
      simp [dedupKeepFirst]
    · simp [dedupKeepFirst, hax, List.mem_filter, ih]

/-- Membership in an ordered insert. -/
theorem mem_insByTotal (a x : StatRow) :
    ∀ l : List StatRow, a ∈ insByTotal x l ↔ a = x ∨ a ∈ l := by
  intro l
  induction l with
  | nil => simp [insByTotal]
  | cons y ys ih =>
    by_cases h : y.total ≤ x.total
    · simp [insByTotal, h]
    · simp [insByTotal, h, ih]
      tauto

/-- Ordered insertion preserves the non-increasing-total invariant. -/
theorem pairwise_insByTotal (x : StatRow) :
    ∀ l : List StatRow,
      l.Pairwise (fun a b => b.total ≤ a.total) →
      (insByTotal x l).Pairwise (fun a b => b.total ≤ a.total) := by
  intro l
  induction l with
  | nil => simp [insByTotal]
  | cons y ys ih =>
    intro hp
    rw [List.pairwise_cons] at hp
    by_cases h : y.total ≤ x.total
    · rw [insByTotal, if_pos h]
      refine List.Pairwise.cons ?_ (List.Pairwise.cons hp.1 hp.2)
      intro z hz
      rcases List.mem_cons.mp hz with hz | hz
      · exact hz ▸ h
      · exact le_trans (hp.1 z hz) h
    · rw [insByTotal, if_neg h]
      refine List.Pairwise.cons ?_ (ih hp.2)
      intro z hz
      rcases (mem_insByTotal z x ys).mp hz with hz | hz
      · exact hz ▸ le_of_lt (lt_of_not_le h)
      · exact hp.1 z hz

/-- The sorted stat list has non-increasing totals. -/
theorem pairwise_sortByTotal :
    ∀ l : List StatRow,
      (sortByTotal l).Pairwise (fun a b => b.total ≤ a.total) := by
  intro l
  induction l with
  | nil => simp [sortByTotal]
  | cons x xs ih => exact pairwise_insByTotal x _ ih

/-- Sorting preserves membership. -/
theorem mem_sortByTotal (a : StatRow) :
    ∀ l : List StatRow, a ∈ sortByTotal l ↔ a ∈ l := by
  intro l
  induction l with
  | nil => simp [sortByTotal]
  | cons x xs ih =>
    simp [sortByTotal, mem_insByTotal, ih]

/-- Every stored row is a post or a comment (the CHECK constraint), so
the two source counts partition any row list. -/
theorem countP_post_add_comment :
    ∀ l : List MentionRow,
      (l.countP fun r => r.source == Source.post) +
        (l.countP fun r => r.source == Source.comment) = l.length := by
  intro l
  induction l with
  | nil => simp
  | cons r rs ih =>
    cases h : r.source <;>
      simp [List.countP_cons, h, ← ih] <;> omega

/-- In every `ticker_stats` row the sub-counts sum to the total. -/
theorem tickerStats_posts_add_comments (db : List MentionRow)
    (cutoff : Int) (sub : String) (s : StatRow)
    (hs : s ∈ tickerStats db cutoff sub) :
    s.posts + s.comments = s.total := by
  unfold tickerStats at hs
  rcases List.mem_map.mp hs with ⟨t, _ht, rfl⟩
  simpa using countP_post_add_comment _

/-- The rows surviving the blocklist filter still have non-increasing
totals. -/
theorem pairwise_keptStats (db : List MentionRow) (tr : String)
    (now : Int) (sub : String) :
    (keptStats db tr now sub).Pairwise (fun a b => b.total ≤ a.total) := by
  unfold keptStats
  exact List.Pairwise.sublist (List.take_sublist 10 _)
    ((pairwise_sortByTotal _).filter _)

/-- A kept stat row is a `ticker_stats` row that passed the blocklist
and length filters. -/
theorem mem_keptStats (db : List MentionRow) (tr : String) (now : Int)
    (sub : String) (s : StatRow) (hs : s ∈ keptStats db tr now sub) :
    s ∈ tickerStats db (cutoffFor tr now) sub ∧
      s.ticker ∉ apiBlocklist ∧ 1 < s.ticker.length := by
  unfold keptStats at hs
  have h1 := List.mem_of_mem_take hs
  have h2 := List.mem_filter.mp h1
  refine ⟨(mem_sortByTotal s _).mp h2.1, ?_, ?_⟩
  · have h3 := h2.2
    simp only [Bool.and_eq_true, decide_eq_true_eq] at h3
    exact h3.1
  · have h3 := h2.2
    simp only [Bool.and_eq_true, decide_eq_true_eq] at h3
    exact h3.2

/-- The response has one row per kept stat row. -/
theorem length_subredditRows (db : List MentionRow) (tr : String)
    (now : Int) (sub : String) (rand : Nat → ℚ) :
    (subredditRows db tr now sub rand).length =
      (keptStats db tr now sub).length := by
  simp [subredditRows]

/-- The `i`-th response row, elementwise. -/
theorem getElem_subredditRows (db : List MentionRow) (tr : String)
    (now : Int) (sub : String) (rand : Nat → ℚ) (i : Nat)
    (hi : i < (subredditRows db tr now sub rand).length) :
    (subredditRows db tr now sub rand).get ⟨i, hi⟩ =
      { rank := i + 1,
        ticker := ((keptStats db tr now sub).get
          ⟨i, by simpa [subredditRows] using hi⟩).ticker,
        posts := ((keptStats db tr now sub).get
          ⟨i, by simpa [subredditRows] using hi⟩).posts,
        comments := ((keptStats db tr now sub).get
          ⟨i, by simpa [subredditRows] using hi⟩).comments,
        change := rand i * 40 - 20 } := by
  simp [subredditRows, List.get_eq_getElem, List.getElem_map,
    List.getElem_enum]

/-! ## Claim theorems -/

/-- C1: the claim asserts that after any sequence of `record()` calls
at most one MentionRecord per (ticker, post_id, comment_id) triple
exists, also for post-level mentions where `comment_id` is absent.  The
code does not satisfy this: the schema enforces uniqueness through
`UNIQUE(ticker, post_id, comment_id)`, and PostgreSQL unique
constraints treat `NULL` values as distinct, so recording the same
post-level mention `(AAPL, "p1", none, ...)` twice leaves TWO records
and a subsequent count reports 2, not 1 (comment-level mentions, whose
`comment_id` is non-`NULL`, are deduplicated as claimed). -/
theorem mentions_post_level_duplicate :
    (record (record [] aaplPostMention) aaplPostMention).length = 2 ∧
    tickerStats (record (record [] aaplPostMention) aaplPostMention)
        0 "stocks" =
      [{ ticker := "AAPL", posts := 2, comments := 0, total := 2 }] ∧
    (record (record []
        { aaplPostMention with comment_id := some "c9",
                               source := Source.comment })
        { aaplPostMention with comment_id := some "c9",
                               source := Source.comment }).length = 1 := by
  refine ⟨by decide, by decide, by decide⟩

/-- C2: for every text, reference set, blocklist and special-symbol
list, a symbol accepted in explicit cashtag form (`$` followed by 1–5
letters, word-bounded, case-normalized, present in the reference set)
is included in the extractor's result, whatever the blocklist — the
blocklist is universally quantified and does not occur in the
hypothesis. -/
theorem extract_cashtag_overrides_blocklist (T : String)
    (R block special : List String) (tick : String)
    (h : tick ∈ cashtagSyms T R) :
    tick ∈ extract_tickers T R block special := by
  unfold extract_tickers
  rw [mem_dedupKeepFirst]
  exact List.mem_append.mpr (Or.inl (List.mem_append.mpr (Or.inl h)))

/-- C2 witness: text `"$AI is mooning"`, reference set `{AI}`, and AI
itself on the blocklist — AI is still extracted. -/
theorem extract_cashtag_overrides_blocklist_witness :
    "AI" ∈ cashtagSyms "$AI is mooning" ["AI"] ∧
    "AI" ∈ extract_tickers "$AI is mooning" ["AI"] ["AI"] ["AI"] :=
  ⟨by decide,
   extract_cashtag_overrides_blocklist "$AI is mooning" ["AI"] ["AI"] ["AI"]
     "AI" (by decide)⟩

/-- C3: for every text, reference set, blocklist and special-symbol
list, a blocklisted symbol is excluded from the extractor's result
when the text has no strong signal (no accepted explicit cashtag):
the cashtag rule yields nothing, the bare rule rejects blocklisted
symbols, and the contextual-override rule requires a strong signal. -/
theorem extract_bare_blocklisted_excluded (T : String)
    (R block special : List String) (tick : String)
    (hb : tick ∈ block) (hsig : cashtagSyms T R = []) :
    tick ∉ extract_tickers T R block special := by
  unfold extract_tickers
  rw [mem_dedupKeepFirst]
  intro hmem
  rcases List.mem_append.mp hmem with h | h
  · rcases List.mem_append.mp h with h | h
    · rw [hsig] at h
      exact absurd h (List.not_mem_nil _)
    · have h2 := (List.mem_filter.mp h).2
      simp only [decide_eq_true_eq] at h2
      exact h2.2 hb
  · unfold promotedSyms at h
    rw [strongSignal, hsig] at h
    simp at h

/-- C3 witness: text `"I think AI will replace us"` with reference
set `{AI}` and AI blocklisted — AI is not extracted. -/
theorem extract_bare_blocklisted_excluded_witness :
    "AI" ∈ (["AI"] : List String) ∧
    cashtagSyms "I think AI will replace us" ["AI"] = [] ∧
    "AI" ∉ extract_tickers "I think AI will replace us" ["AI"] ["AI"] ["AI"] :=
  ⟨by decide, by decide,
   extract_bare_blocklisted_excluded "I think AI will replace us"
     ["AI"] ["AI"] ["AI"] "AI" (by decide) (by decide)⟩

/-- C4 (amended): the ranked rows of the subreddit endpoint are in
non-increasing order of total mention count (posts + comments).  The
tie-break half of the original claim is refuted by
`ranking_tie_not_alphabetical`. -/
theorem ranking_total_descending (db : List MentionRow) (tr : String)
    (now : Int) (sub : String) (rand : Nat → ℚ) (i j : Nat)
    (hij : i < j) (hj : j < (subredditRows db tr now sub rand).length) :
    ((subredditRows db tr now sub rand).get ⟨j, hj⟩).posts +
      ((subredditRows db tr now sub rand).get ⟨j, hj⟩).comments ≤
    ((subredditRows db tr now sub rand).get ⟨i, lt_trans hij hj⟩).posts +
      ((subredditRows db tr now sub rand).get
        ⟨i, lt_trans hij hj⟩).comments := by
  have hj' : j < (keptStats db tr now sub).length := by
    simpa [length_subredditRows] using hj
  have hi' : i < (keptStats db tr now sub).length := lt_trans hij hj'
  rw [getElem_subredditRows db tr now sub rand j hj,
    getElem_subredditRows db tr now sub rand i (lt_trans hij hj)]
  have hkj : (keptStats db tr now sub).get ⟨j, hj'⟩ ∈
      keptStats db tr now sub := List.get_mem _ _ _
  have hki : (keptStats db tr now sub).get ⟨i, hi'⟩ ∈
      keptStats db tr now sub := List.get_mem _ _ _
  have hpj := tickerStats_posts_add_comments db (cutoffFor tr now) sub _
    (mem_keptStats db tr now sub _ hkj).1
  have hpi := tickerStats_posts_add_comments db (cutoffFor tr now) sub _
    (mem_keptStats db tr now sub _ hki).1
  have hord := (List.pairwise_iff_get.mp (pairwise_keptStats db tr now sub))
    ⟨i, hi'⟩ ⟨j, hj'⟩ hij
  simp only []
  omega

/-- C4 witness: a database with one TSLA and one AAPL mention yields
two rows whose counts are non-increasing. -/
theorem ranking_total_descending_witness :
    (0 : Nat) < 1 ∧
    ((subredditRows [tslaRow, aaplRow] "daily" 0 "stocks"
        (fun _ => 0)).get ⟨1, by decide⟩).posts +
      ((subredditRows [tslaRow, aaplRow] "daily" 0 "stocks"
        (fun _ => 0)).get ⟨1, by decide⟩).comments ≤
    ((subredditRows [tslaRow, aaplRow] "daily" 0 "stocks"
        (fun _ => 0)).get ⟨0, by decide⟩).posts +
      ((subredditRows [tslaRow, aaplRow] "daily" 0 "stocks"
        (fun _ => 0)).get ⟨0, by decide⟩).comments :=
  ⟨by decide,
   ranking_total_descending [tslaRow, aaplRow] "daily" 0 "stocks"
     (fun _ => 0) 0 1 (by decide) (by decide)⟩

/-- C4 counterexample: the SQL orders by `total_mentions DESC` only —
no tie-break on the ticker symbol exists in the query — so equal-count
tickers do NOT appear in ascending lexical order: with a TSLA mention
stored before an AAPL mention, both with count 1, the endpoint returns
TSLA before AAPL. -/
theorem ranking_tie_not_alphabetical :
    ¬ (∀ i j : Fin (subredditRows [tslaRow, aaplRow] "daily" 0 "stocks"
          (fun _ => 0)).length,
        i < j →
        ((subredditRows [tslaRow, aaplRow] "daily" 0 "stocks"
            (fun _ => 0)).get i).posts +
          ((subredditRows [tslaRow, aaplRow] "daily" 0 "stocks"
            (fun _ => 0)).get i).comments =
        ((subredditRows [tslaRow, aaplRow] "daily" 0 "stocks"
            (fun _ => 0)).get j).posts +
          ((subredditRows [tslaRow, aaplRow] "daily" 0 "stocks"
            (fun _ => 0)).get j).comments →
        lexLt ((subredditRows [tslaRow, aaplRow] "daily" 0 "stocks"
            (fun _ => 0)).get i).ticker
          ((subredditRows [tslaRow, aaplRow] "daily" 0 "stocks"
            (fun _ => 0)).get j).ticker) := by
  decide

/-- C5: whatever the database contains — including mentions of
blocklisted symbols — every row of the ranked response has a ticker
that is neither in the route's blocklist nor a single letter: the
final `SELECT` filters `ticker NOT IN (...) AND LENGTH(ticker) > 1`
before the rows are returned. -/
theorem ranked_output_excludes_blocklist (db : List MentionRow)
    (tr : String) (now : Int) (sub : String) (rand : Nat → ℚ) (r : OutRow)
    (hr : r ∈ subredditRows db tr now sub rand) :
    r.ticker ∉ apiBlocklist ∧ 1 < r.ticker.length := by
  unfold subredditRows at hr
  rcases List.mem_map.mp hr with ⟨p, hp, rfl⟩
  have hsnd : p.2 ∈ keptStats db tr now sub := by
    have h2 := List.mem_map_of_mem Prod.snd hp
    rwa [List.enum_map_snd] at h2
  have hk := mem_keptStats db tr now sub _ hsnd
  exact ⟨hk.2.1, hk.2.2⟩

/-- C5 witness: a database holding a mention of the blocklisted symbol
FAST (a data-entry anomaly); the first returned row is not
blocklisted, and FAST itself never surfaces. -/
theorem ranked_output_excludes_blocklist_witness :
    ((subredditRows [tslaRow, fastRow] "daily" 0 "stocks"
        (fun _ => 0)).get ⟨0, by decide⟩) ∈
      subredditRows [tslaRow, fastRow] "daily" 0 "stocks" (fun _ => 0) ∧
    (((subredditRows [tslaRow, fastRow] "daily" 0 "stocks"
        (fun _ => 0)).get ⟨0, by decide⟩).ticker ∉ apiBlocklist ∧
      1 < ((subredditRows [tslaRow, fastRow] "daily" 0 "stocks"
        (fun _ => 0)).get ⟨0, by decide⟩).ticker.length) :=
  ⟨List.get_mem _ _ _,
   ranked_output_excludes_blocklist [tslaRow, fastRow] "daily" 0 "stocks"
     (fun _ => 0) _ (List.get_mem _ _ _)⟩

/-- C6: immediately after `REFRESH MATERIALIZED VIEW mentions_hourly`,
the cached snapshot equals the view's defining aggregation recomputed
directly from the `mentions` rows at that moment; and the refreshed
snapshot is a function of the `mentions` rows alone — it carries no
information from the previous cache state. -/
theorem mentions_hourly_refresh_consistent (now : Int) (s : StoreState)
    (c1 c2 : List HourlyRow) (m : List MentionRow) :
    (refreshHourly now s).cache =
      mentionsHourly now (refreshHourly now s).mentions ∧
    (refreshHourly now { mentions := m, cache := c1 }).cache =
      (refreshHourly now { mentions := m, cache := c2 }).cache :=
  ⟨rfl, rfl⟩

/-- C7: in every `ticker_stats` row, the post sub-count is the number
of in-scope records with source `post`, the comment sub-count the
number with source `comment`, and the two sum to the total; likewise
in every `mentions_hourly` row the sub-counts sum to `hits` (every
record's source is `post` or `comment` by the CHECK constraint). -/
theorem counts_partition_by_source (db : List MentionRow) (cutoff : Int)
    (sub : String) (now : Int) (s : StatRow) (h : HourlyRow)
    (hs : s ∈ tickerStats db cutoff sub) (hh : h ∈ mentionsHourly now db) :
    (s.posts = ((groupRows db cutoff sub s.ticker).filter
        (fun r => r.source == Source.post)).length ∧
     s.comments = ((groupRows db cutoff sub s.ticker).filter
        (fun r => r.source == Source.comment)).length ∧
     s.posts + s.comments = s.total) ∧
    h.posts + h.comments = h.hits := by
  constructor
  · unfold tickerStats at hs
    rcases List.mem_map.mp hs with ⟨t, _ht, rfl⟩
    refine ⟨?_, ?_, ?_⟩
    · simp [groupRows, List.countP_eq_length_filter]
    · simp [groupRows, List.countP_eq_length_filter]
    · simpa using countP_post_add_comment _
  · unfold mentionsHourly at hh
    rcases List.mem_map.mp hh with ⟨k, _hk, rfl⟩
    simpa using countP_post_add_comment _

/-- C7 witness: the single-TSLA database, evaluated in both the
`ticker_stats` query and the hourly view. -/
theorem counts_partition_by_source_witness :
    (⟨"TSLA", 1, 0, 1⟩ : StatRow) ∈ tickerStats [tslaRow] 0 "stocks" ∧
    (⟨"TSLA", "stocks", 0, 1, 1, 0, none⟩ : HourlyRow) ∈
      mentionsHourly 0 [tslaRow] ∧
    ((1 : Nat) = ((groupRows [tslaRow] 0 "stocks" "TSLA").filter
        (fun r => r.source == Source.post)).length ∧
     (0 : Nat) = ((groupRows [tslaRow] 0 "stocks" "TSLA").filter
        (fun r => r.source == Source.comment)).length ∧
     1 + 0 = 1) ∧
    1 + 0 = 1 :=
  ⟨by decide, by decide,
   counts_partition_by_source [tslaRow] 0 "stocks" 0
     ⟨"TSLA", 1, 0, 1⟩ ⟨"TSLA", "stocks", 0, 1, 1, 0, none⟩
     (by decide) (by decide)⟩

/-- C8: the extractor is deterministic and side-effect free — it is a
pure function of the text, the reference set, the blocklist and the
special-symbol list, so two calls on identical inputs return the
identical symbol list. -/
theorem extract_deterministic (T1 T2 : String)
    (R1 R2 block1 block2 special1 special2 : List String)
    (hT : T1 = T2) (hR : R1 = R2) (hb : block1 = block2)
    (hs : special1 = special2) :
    extract_tickers T1 R1 block1 special1 =
      extract_tickers T2 R2 block2 special2 := by
  subst hT
  subst hR
  subst hb
  subst hs
  rfl

/-- C8 witness: two calls on the same concrete input agree. -/
theorem extract_deterministic_witness :
    extract_tickers "$TSLA to the moon" ["TSLA"] specBlocklist specialSyms =
      extract_tickers "$TSLA to the moon" ["TSLA"] specBlocklist specialSyms :=
  extract_deterministic _ _ _ _ _ _ _ _ rfl rfl rfl rfl

/-- C9: every per-subreddit response has at most 10 rows (`LIMIT 10`),
and its `rank` fields are exactly the consecutive integers 1..n in
list order — the JavaScript re-assigns `rank: index + 1` after the
blocklist filter, so filtering never leaves gaps. -/
theorem subreddit_rows_limit_and_ranks (db : List MentionRow)
    (tr : String) (now : Int) (sub : String) (rand : Nat → ℚ) :
    (subredditRows db tr now sub rand).length ≤ 10 ∧
    (subredditRows db tr now sub rand).map OutRow.rank =
      List.range' 1 (subredditRows db tr now sub rand).length := by
  constructor
  · rw [length_subredditRows]
    unfold keptStats
    exact List.length_take_le _ _
  · rw [length_subredditRows]
    unfold subredditRows
    rw [List.map_map]
    have h1 : (OutRow.rank ∘ fun p : Nat × StatRow =>
        ({ rank := p.1 + 1, ticker := p.2.ticker, posts := p.2.posts,
           comments := p.2.comments,
           change := rand p.1 * 40 - 20 } : OutRow)) =
        (fun n : Nat => n + 1) ∘ Prod.fst := rfl
    rw [h1, ← List.map_map, List.enum_map_fst]
    rw [List.range'_eq_map_range]
    simp [Nat.add_comm]

/-- C10: for a fixed database, clock and request, the rank, ticker,
posts and comments fields of the response are identical across two
invocations whatever the `Math.random()` stream produces; but the full
response is not deterministic — two runs differing only in the random
stream return different `change` fields. -/
theorem subreddit_change_nondeterministic :
    (∀ (db : List MentionRow) (tr : String) (now : Int) (sub : String)
        (r1 r2 : Nat → ℚ),
      (subredditRows db tr now sub r1).map eraseChange =
        (subredditRows db tr now sub r2).map eraseChange) ∧
    subredditRows [tslaRow, aaplRow] "daily" 0 "stocks" (fun _ => 0) ≠
      subredditRows [tslaRow, aaplRow] "daily" 0 "stocks" (fun _ => 1) := by
  constructor
  · intro db tr now sub r1 r2
    unfold subredditRows
    rw [List.map_map, List.map_map]
    rfl
  · intro h
    have h0 := congrArg (List.map OutRow.change) h
    simp [subredditRows, keptStats, tickerStats, sortByTotal, insByTotal,
      dedupKeepFirst, cutoffFor, apiBlocklist, tslaRow, aaplRow] at h0
    exact absurd (h0 0 ⟨"TSLA", 1, 0, 1⟩ (by decide)) (by norm_num)

end StockMentions
